import Mathlib

/-!
Verification of the BCM port-group lane manager
(`fboss/agent/hw/bcm/BcmPortGroup.cpp`).

The C++ code manages a four-lane "flex port" group: it resolves the
desired lane mode (SINGLE / DUAL / QUAD) from a switch-state snapshot and,
when the desired mode differs from the currently recorded one, runs the
reconfiguration protocol (disable all members, write the lane register,
re-enable the members that stay enabled).

Machine integers of the source (`uint32_t` speeds, `uint8_t` lane ids)
stay well inside their ranges here, so they are embedded as `Nat`;
`cfg::PortSpeed` is its numeric value with `DEFAULT = 0`.  C++ exceptions
are embedded as `Except` / explicit error threading.
-/

namespace BcmPortGroupModel

/-- `BcmPortGroup::LaneMode`: declared in the header in the order
SINGLE, DUAL, QUAD, so the enum ordinal order is SINGLE < DUAL < QUAD
(a smaller value demands more lanes per port). -/
inductive LaneMode where
  | SINGLE
  | DUAL
  | QUAD
deriving DecidableEq, Repr

/-- Ordinal rank of a `LaneMode`, mirroring the C++ enum ordinal used by
`operator<`: SINGLE = 0, DUAL = 1, QUAD = 2. -/
def rank : LaneMode → Nat
  | .SINGLE => 0
  | .DUAL => 1
  | .QUAD => 2

/-- The `FbossError` values thrown by this translation unit (plus the
speed-support error raised in `getDesiredLaneMode`). -/
inductive FbossError where
  | speedDefault
  | cannotSupportSpeed (speed : Nat)
  | singleLanePlacement
  | dualLanePlacement
  | portDoesNotSupportSpeed (portId speed : Nat)
  | wrongGroupSize
  | portsNotLaneOrdered
  | unexpectedLaneCount
deriving DecidableEq, Repr

/-- `neededLaneModeForSpeed(PortSpeed speed, PortSpeed maxLaneSpeed)`:
`DEFAULT` (numeric 0) is rejected, otherwise the lane requirement is the
unsigned integer quotient `speed / maxLaneSpeed`. -/
def neededLaneModeForSpeed (speed maxLaneSpeed : Nat) :
    Except FbossError LaneMode :=
  if speed = 0 then
    .error .speedDefault
  else
    let neededLanes := speed / maxLaneSpeed
    if neededLanes ≤ 1 then
      .ok .QUAD
    else if neededLanes = 2 then
      .ok .DUAL
    else if 2 < neededLanes ∧ neededLanes ≤ 4 then
      .ok .SINGLE
    else
      .error (.cannotSupportSpeed speed)

/-- Refinement of `neededLaneModeForSpeed` that tracks C++ definedness:
unsigned division by zero is undefined behaviour in the source, so the
division step yields `none` when `maxLaneSpeed` is 0.  The `DEFAULT`
check precedes the division, exactly as in the source. -/
def neededLaneModeForSpeedChecked (speed maxLaneSpeed : Nat) :
    Option (Except FbossError LaneMode) :=
  if speed = 0 then
    some (.error .speedDefault)
  else if maxLaneSpeed = 0 then
    none
  else
    some (neededLaneModeForSpeed speed maxLaneSpeed)

/-- A switch-state `Port` as read by this code: `getID()`, `getSpeed()`
(numeric `cfg::PortSpeed`), `isDisabled()`. -/
structure Port where
  id : Nat
  speed : Nat
  isDisabled : Bool
deriving DecidableEq, Repr

/-- Loop body state of `BcmPortGroup::calculateDesiredLaneMode`, walking
the lane-ordered port list with the running lane index and the running
desired mode. -/
def calcGo (maxLaneSpeed : Nat) :
    List Port → Nat → LaneMode → Except FbossError LaneMode
  | [], _, desiredMode => .ok desiredMode
  | port :: rest, lane, desiredMode =>
    if port.isDisabled then
      calcGo maxLaneSpeed rest (lane + 1) desiredMode
    else
      match neededLaneModeForSpeed port.speed maxLaneSpeed with
      | .error e => .error e
      | .ok neededMode =>
        let desiredMode' :=
          if rank neededMode < rank desiredMode then neededMode
          else desiredMode
        if desiredMode' = .SINGLE then
          if lane ≠ 0 then .error .singleLanePlacement
          else calcGo maxLaneSpeed rest (lane + 1) desiredMode'
        else if desiredMode' = .DUAL then
          if lane ≠ 0 ∧ lane ≠ 2 then .error .dualLanePlacement
          else calcGo maxLaneSpeed rest (lane + 1) desiredMode'
        else
          calcGo maxLaneSpeed rest (lane + 1) desiredMode'

/-- `BcmPortGroup::calculateDesiredLaneMode`: start from QUAD and walk
lanes 0..3 in order. -/
def calculateDesiredLaneMode (ports : List Port) (maxLaneSpeed : Nat) :
    Except FbossError LaneMode :=
  calcGo maxLaneSpeed ports 0 .QUAD

/-- A `BcmPort` as used by this code: its hardware port id
(`getBcmPortId()`), the speed-support predicate (`supportsSpeed`, an
external per-port capability) and `maxLaneSpeed()` (queried on the
controlling port). -/
structure BcmPort where
  bcmPortId : Nat
  supportsSpeed : Nat → Bool
  maxLaneSpeed : Nat

/-- A switch-state snapshot, resolving a BCM port id to its switch-state
port (`BcmPort::getSwitchStatePort(state)`). -/
def SwitchState := Nat → Port

/-- The `BcmPortGroup` object state: controlling port, lane-ordered
member ports, and the recorded active lane mode `laneMode_`. -/
structure BcmPortGroup where
  controllingPort : BcmPort
  allPorts : List BcmPort
  laneMode : LaneMode

/-- One hardware-visible action taken by the group: disabling or
enabling a member port (via `BcmPort::disable` / `BcmPort::enable`) or
writing the lane-control register (`setActiveLanes`). -/
inductive HwEvent where
  | disablePort (portId : Nat)
  | setLanes (laneCount : Nat)
  | enablePort (portId : Nat)
deriving DecidableEq, Repr

/-- Hardware state visible to the group: the group's lane-control
register (active lane count), per-port hardware enablement, and the
trace of hardware actions performed so far. -/
structure Hw where
  lanes : Nat
  portEnabled : Nat → Bool
  log : List HwEvent

/-- Modelled from the spec: `BcmPort::disable` (external collaborator,
not in this translation unit) takes the port out of service and out of
the counter-DMA / link-scan bitmaps; here it clears the port's hardware
enable flag and records the action. -/
def portDisable (bp : BcmPort) (hw : Hw) : Hw :=
  { lanes := hw.lanes
    portEnabled := fun i => if i = bp.bcmPortId then false else hw.portEnabled i
    log := hw.log ++ [.disablePort bp.bcmPortId] }

/-- Modelled from the spec: `BcmPort::enable` (external collaborator)
puts the port back in service and re-adds it to counter-DMA / link-scan;
here it sets the port's hardware enable flag and records the action. -/
def portEnable (bp : BcmPort) (hw : Hw) : Hw :=
  { lanes := hw.lanes
    portEnabled := fun i => if i = bp.bcmPortId then true else hw.portEnabled i
    log := hw.log ++ [.enablePort bp.bcmPortId] }

/-- Active lane count written to the register for a mode, inverse of the
constructor's mapping (1 lane → QUAD, 2 → DUAL, 4 → SINGLE). -/
def laneCountOf : LaneMode → Nat
  | .QUAD => 1
  | .DUAL => 2
  | .SINGLE => 4

/-- Modelled from the spec: `BcmPortGroup::setActiveLanes` (defined
outside this translation unit) writes the new lane count to the shared
lane-control register keyed by the controlling port, and is the single
point of mutation of the recorded `laneMode_`, updated after the
hardware write. -/
def setActiveLanes (g : BcmPortGroup) (newLaneMode : LaneMode) (hw : Hw) :
    BcmPortGroup × Hw :=
  ({ g with laneMode := newLaneMode },
   { lanes := laneCountOf newLaneMode
     portEnabled := hw.portEnabled
     log := hw.log ++ [.setLanes (laneCountOf newLaneMode)] })

/-- The member-collection loop of `BcmPortGroup::getDesiredLaneMode`:
resolve each member's switch-state port and reject its configured speed
if the physical port does not support it — checked even for disabled
ports. -/
def collectPorts (st : SwitchState) : List BcmPort →
    Except FbossError (List Port)
  | [] => .ok []
  | bp :: rest =>
    let swPort := st bp.bcmPortId
    if bp.supportsSpeed swPort.speed then
      match collectPorts st rest with
      | .error e => .error e
      | .ok ports => .ok (swPort :: ports)
    else
      .error (.portDoesNotSupportSpeed swPort.id swPort.speed)

/-- `BcmPortGroup::getDesiredLaneMode`: collect the members' switch-state
ports (with the speed-support check) and run the resolution over them
with the controlling port's max lane speed. -/
def getDesiredLaneMode (g : BcmPortGroup) (st : SwitchState) :
    Except FbossError LaneMode :=
  match collectPorts st g.allPorts with
  | .error e => .error e
  | .ok ports => calculateDesiredLaneMode ports g.controllingPort.maxLaneSpeed

/-- `BcmPortGroup::validConfiguration`: run the resolution pipeline,
catch any exception and turn it into `false`; no exception yields
`true`. -/
def validConfiguration (g : BcmPortGroup) (st : SwitchState) : Bool :=
  match getDesiredLaneMode g st with
  | .error _ => false
  | .ok _ => true

/-- `BcmPortGroup::getLane`: the member's lane offset from the
controlling port's hardware id. -/
def getLane (g : BcmPortGroup) (bp : BcmPort) : Nat :=
  bp.bcmPortId - g.controllingPort.bcmPortId

/-- `BcmPortGroup::reconfigure`: 1. disable all group members,
3. write the lane-control register, 4. re-enable the members whose
snapshot state is not disabled (steps 2 and 5 happen inside the port
collaborator's disable/enable). -/
def reconfigure (g : BcmPortGroup) (st : SwitchState) (newLaneMode : LaneMode)
    (hw : Hw) : BcmPortGroup × Hw :=
  let hw1 := g.allPorts.foldl (fun h bp => portDisable bp h) hw
  let p := setActiveLanes g newLaneMode hw1
  let hw3 := p.1.allPorts.foldl
    (fun h bp => if (st bp.bcmPortId).isDisabled then h else portEnable bp h) p.2
  (p.1, hw3)

/-- `BcmPortGroup::reconfigureIfNeeded`: resolve the desired mode and
reconfigure only when it differs from the recorded mode.  A thrown
resolution error is returned alongside the group and hardware state as
they stood at the throw point. -/
def reconfigureIfNeeded (g : BcmPortGroup) (st : SwitchState) (hw : Hw) :
    Option FbossError × BcmPortGroup × Hw :=
  match getDesiredLaneMode g st with
  | .error e => (some e, g, hw)
  | .ok desiredLaneMode =>
    if desiredLaneMode ≠ g.laneMode then
      let p := reconfigure g st desiredLaneMode hw
      (none, p.1, p.2)
    else
      (none, g, hw)

/-- The `BcmPortGroup` constructor: exactly four members, lane-ordered
0..3 relative to the controlling port, and the initial `laneMode_`
decoded from the hardware-reported active lane count
(`retrieveActiveLanes`, read from the lane-control register). -/
def mkBcmPortGroup (controllingPort : BcmPort) (allPorts : List BcmPort)
    (hw : Hw) : Except FbossError BcmPortGroup :=
  if allPorts.length ≠ 4 then
    .error .wrongGroupSize
  else if ¬ (List.range allPorts.length).all
      (fun i => (allPorts.getD i controllingPort).bcmPortId -
        controllingPort.bcmPortId == i) then
    .error .portsNotLaneOrdered
  else
    match hw.lanes with
    | 1 => .ok ⟨controllingPort, allPorts, .QUAD⟩
    | 2 => .ok ⟨controllingPort, allPorts, .DUAL⟩
    | 4 => .ok ⟨controllingPort, allPorts, .SINGLE⟩
    | _ => .error .unexpectedLaneCount

/-! ### Helper functions and lemmas -/

/-- The lane mode a port demands, defaulting to QUAD when the speed
computation fails (only used on runs where it does not fail). -/
def needD (maxLaneSpeed : Nat) (p : Port) : LaneMode :=
  match neededLaneModeForSpeed p.speed maxLaneSpeed with
  | .ok n => n
  | .error _ => .QUAD

/-- One step of the running-minimum over enabled ports performed by the
`calculateDesiredLaneMode` loop. -/
def step (maxLaneSpeed : Nat) (m : LaneMode) (p : Port) : LaneMode :=
  if p.isDisabled then m
  else if rank (needD maxLaneSpeed p) < rank m then needD maxLaneSpeed p
  else m

theorem rank_step_le (maxLaneSpeed : Nat) (m : LaneMode) (p : Port) :
    rank (step maxLaneSpeed m p) ≤ rank m := by
  unfold step
  split
  · exact le_refl _
  · split <;> omega

theorem step_mono (maxLaneSpeed : Nat) {m m' : LaneMode} (p : Port)
    (h : rank m ≤ rank m') :
    rank (step maxLaneSpeed m p) ≤ rank (step maxLaneSpeed m' p) := by
  unfold step
  split
  · exact h
  · split <;> split <;> omega

/-- When the resolution loop succeeds, its result is the left fold of
`step` over the port list. -/
theorem calcGo_ok_eq_foldl (maxLaneSpeed : Nat) :
    ∀ (ps : List Port) (lane : Nat) (acc d : LaneMode),
      calcGo maxLaneSpeed ps lane acc = .ok d →
      d = ps.foldl (step maxLaneSpeed) acc := by
  intro ps
  induction ps with
  | nil =>
    intro lane acc d h
    simp only [calcGo] at h
    cases h
    rfl
  | cons p rest ih =>
    intro lane acc d h
    simp only [calcGo] at h
    by_cases hd : p.isDisabled
    · rw [if_pos hd] at h
      have := ih (lane + 1) acc d h
      simpa [List.foldl_cons, step, hd] using this
    · rw [if_neg hd] at h
      cases hn : neededLaneModeForSpeed p.speed maxLaneSpeed with
      | error e => rw [hn] at h; cases h
      | ok n =>
        rw [hn] at h
        simp only at h
        have hstep : step maxLaneSpeed acc p =
            if rank n < rank acc then n else acc := by
          simp [step, hd, needD, hn]
        set acc' := if rank n < rank acc then n else acc with hacc'
        have hgoal : calcGo maxLaneSpeed rest (lane + 1) acc' = .ok d →
            d = List.foldl (step maxLaneSpeed) acc (p :: rest) := by
          intro hgo
          have := ih (lane + 1) acc' d hgo
          rw [List.foldl_cons, hstep]
          exact this
        by_cases h1 : acc' = LaneMode.SINGLE
        · rw [if_pos h1] at h
          by_cases h2 : lane ≠ 0
          · rw [if_pos h2] at h; cases h
          · rw [if_neg h2] at h; exact hgoal h
        · rw [if_neg h1] at h
          by_cases h3 : acc' = LaneMode.DUAL
          · rw [if_pos h3] at h
            by_cases h4 : lane ≠ 0 ∧ lane ≠ 2
            · rw [if_pos h4] at h; cases h
            · rw [if_neg h4] at h; exact hgoal h
          · rw [if_neg h3] at h; exact hgoal h

/-- The resolution loop ignores disabled ports entirely. -/
theorem calcGo_allDisabled (maxLaneSpeed : Nat) :
    ∀ (ps : List Port) (lane : Nat) (acc : LaneMode),
      (∀ p ∈ ps, p.isDisabled = true) →
      calcGo maxLaneSpeed ps lane acc = .ok acc := by
  intro ps
  induction ps with
  | nil => intro lane acc _; rfl
  | cons p rest ih =>
    intro lane acc hall
    have hp : p.isDisabled = true := hall p (by simp)
    simp only [calcGo, hp, if_pos]
    exact ih (lane + 1) acc (fun q hq => hall q (by simp [hq]))

theorem foldl_disable_log (ps : List BcmPort) :
    ∀ hw : Hw, (ps.foldl (fun h bp => portDisable bp h) hw).log =
      hw.log ++ ps.map (fun bp => HwEvent.disablePort bp.bcmPortId) := by
  induction ps with
  | nil => intro hw; simp
  | cons bp rest ih =>
    intro hw
    rw [List.foldl_cons, ih, List.map_cons]
    simp [portDisable]

theorem foldl_disable_lanes (ps : List BcmPort) :
    ∀ hw : Hw, (ps.foldl (fun h bp => portDisable bp h) hw).lanes =
      hw.lanes := by
  induction ps with
  | nil => intro hw; rfl
  | cons bp rest ih => intro hw; rw [List.foldl_cons, ih]; rfl

theorem foldl_enable_log (st : SwitchState) (ps : List BcmPort) :
    ∀ hw : Hw,
      (ps.foldl (fun h bp =>
        if (st bp.bcmPortId).isDisabled then h else portEnable bp h) hw).log =
      hw.log ++ (ps.filter fun bp => !(st bp.bcmPortId).isDisabled).map
        (fun bp => HwEvent.enablePort bp.bcmPortId) := by
  induction ps with
  | nil => intro hw; simp
  | cons bp rest ih =>
    intro hw
    rw [List.foldl_cons]
    by_cases hbp : (st bp.bcmPortId).isDisabled
    · rw [if_pos hbp, ih]
      simp [List.filter_cons, hbp]
    · rw [if_neg hbp, ih]
      simp [List.filter_cons, hbp, portEnable]

theorem foldl_enable_lanes (st : SwitchState) (ps : List BcmPort) :
    ∀ hw : Hw,
      (ps.foldl (fun h bp =>
        if (st bp.bcmPortId).isDisabled then h
        else portEnable bp h) hw).lanes = hw.lanes := by
  induction ps with
  | nil => intro hw; rfl
  | cons bp rest ih =>
    intro hw
    rw [List.foldl_cons]
    by_cases hbp : (st bp.bcmPortId).isDisabled
    · rw [if_pos hbp, ih]
    · rw [if_neg hbp, ih]; rfl

theorem reconfigure_fst (g : BcmPortGroup) (st : SwitchState)
    (m : LaneMode) (hw : Hw) :
    (reconfigure g st m hw).1 = { g with laneMode := m } := rfl

theorem reconfigure_lanes (g : BcmPortGroup) (st : SwitchState)
    (m : LaneMode) (hw : Hw) :
    (reconfigure g st m hw).2.lanes = laneCountOf m := by
  unfold reconfigure
  simp only
  rw [foldl_enable_lanes]
  rfl

theorem reconfigure_log (g : BcmPortGroup) (st : SwitchState)
    (m : LaneMode) (hw : Hw) :
    (reconfigure g st m hw).2.log =
      hw.log ++ g.allPorts.map (fun bp => HwEvent.disablePort bp.bcmPortId)
        ++ [HwEvent.setLanes (laneCountOf m)]
        ++ (g.allPorts.filter fun bp => !(st bp.bcmPortId).isDisabled).map
            (fun bp => HwEvent.enablePort bp.bcmPortId) := by
  unfold reconfigure
  simp only
  rw [foldl_enable_log]
  simp only [setActiveLanes]
  rw [foldl_disable_log]

/-- `getDesiredLaneMode` reads only the member list and the controlling
port, never the recorded lane mode. -/
theorem getDesiredLaneMode_laneMode_irrel (g : BcmPortGroup)
    (st : SwitchState) (m : LaneMode) :
    getDesiredLaneMode { g with laneMode := m } st =
      getDesiredLaneMode g st := rfl

theorem foldl_disable_portEnabled (ps : List BcmPort) (i : Nat) :
    ∀ hw : Hw, (ps.foldl (fun h bp => portDisable bp h) hw).portEnabled i =
      if i ∈ ps.map (fun bp => bp.bcmPortId) then false
      else hw.portEnabled i := by
  induction ps with
  | nil => intro hw; simp
  | cons bp rest ih =>
    intro hw
    rw [List.foldl_cons, ih]
    by_cases hmem : i ∈ rest.map (fun bp => bp.bcmPortId)
    · simp [hmem]
    · by_cases hi : i = bp.bcmPortId
      · simp [hmem, hi, portDisable]
      · simp [hmem, hi, portDisable]

theorem foldl_enable_portEnabled (st : SwitchState) (ps : List BcmPort)
    (i : Nat) :
    ∀ hw : Hw,
      (ps.foldl (fun h bp =>
        if (st bp.bcmPortId).isDisabled then h
        else portEnable bp h) hw).portEnabled i =
      if i ∈ ((ps.filter fun bp => !(st bp.bcmPortId).isDisabled).map
          (fun bp => bp.bcmPortId)) then true
      else hw.portEnabled i := by
  induction ps with
  | nil => intro hw; simp
  | cons bp rest ih =>
    intro hw
    rw [List.foldl_cons]
    by_cases hbp : (st bp.bcmPortId).isDisabled
    · have hf : List.filter (fun bp2 => !(st bp2.bcmPortId).isDisabled)
          (bp :: rest) =
          List.filter (fun bp2 => !(st bp2.bcmPortId).isDisabled) rest := by
        simp [List.filter_cons, hbp]
      rw [if_pos hbp, ih, hf]
    · have hf : List.filter (fun bp2 => !(st bp2.bcmPortId).isDisabled)
          (bp :: rest) =
          bp :: List.filter (fun bp2 => !(st bp2.bcmPortId).isDisabled) rest := by
        simp [List.filter_cons, hbp]
      rw [if_neg hbp, ih, hf]
      by_cases hmem : i ∈ (rest.filter fun bp2 =>
          !(st bp2.bcmPortId).isDisabled).map (fun bp2 => bp2.bcmPortId)
      · simp [hmem]
      · by_cases hi : i = bp.bcmPortId
        · simp [hmem, hi, portEnable]
        · simp [hmem, hi, portEnable]

/-! ### Claim theorems -/

/-- C4: for a non-DEFAULT speed the per-port lane-mode requirement maps
the quotient `speed / maxLaneSpeed` to QUAD when ≤ 1, DUAL when = 2,
SINGLE when in (2, 4], and an unsupported-speed error when > 4; the
DEFAULT sentinel (numeric 0) is always an error. -/
theorem neededLaneModeForSpeed_mapping (speed maxLaneSpeed : Nat) :
    (speed = 0 →
      neededLaneModeForSpeed speed maxLaneSpeed = .error .speedDefault) ∧
    (speed ≠ 0 →
      (speed / maxLaneSpeed ≤ 1 →
        neededLaneModeForSpeed speed maxLaneSpeed = .ok .QUAD) ∧
      (speed / maxLaneSpeed = 2 →
        neededLaneModeForSpeed speed maxLaneSpeed = .ok .DUAL) ∧
      (2 < speed / maxLaneSpeed → speed / maxLaneSpeed ≤ 4 →
        neededLaneModeForSpeed speed maxLaneSpeed = .ok .SINGLE) ∧
      (4 < speed / maxLaneSpeed →
        neededLaneModeForSpeed speed maxLaneSpeed =
          .error (.cannotSupportSpeed speed))) := by
  constructor
  · intro h
    simp [neededLaneModeForSpeed, h]
  · intro h
    refine ⟨fun h1 => ?_, fun h2 => ?_, fun h3 h4 => ?_, fun h5 => ?_⟩ <;>
      simp only [neededLaneModeForSpeed, if_neg h] <;>
      split_ifs <;> first | rfl | omega

theorem neededLaneModeForSpeed_mapping_witness :
    (40 : Nat) ≠ 0 ∧ 2 < 40 / 10 ∧ 40 / 10 ≤ 4 ∧
    neededLaneModeForSpeed 40 10 = .ok .SINGLE :=
  ⟨by decide, by decide, by decide,
    ((neededLaneModeForSpeed_mapping 40 10).2 (by decide)).2.2.1
      (by decide) (by decide)⟩

/-- C10: the requirement function divides with no zero guard
(undefined behaviour in the source when `maxLaneSpeed` is 0); it agrees
with the total model exactly under the precondition `0 < maxLaneSpeed`,
and with a zero divisor it is undefined for every non-sentinel speed
(the sentinel is rejected before the division). -/
theorem neededLaneModeForSpeed_div_guard (speed maxLaneSpeed : Nat) :
    (0 < maxLaneSpeed →
      neededLaneModeForSpeedChecked speed maxLaneSpeed =
        some (neededLaneModeForSpeed speed maxLaneSpeed)) ∧
    (speed ≠ 0 → neededLaneModeForSpeedChecked speed 0 = none) := by
  constructor
  · intro h
    by_cases hs : speed = 0
    · simp [neededLaneModeForSpeedChecked, neededLaneModeForSpeed, hs]
    · simp [neededLaneModeForSpeedChecked, hs, Nat.pos_iff_ne_zero.mp h]
  · intro h
    simp [neededLaneModeForSpeedChecked, h]

theorem neededLaneModeForSpeed_div_guard_witness :
    (0 : Nat) < 10 ∧ (40 : Nat) ≠ 0 ∧
    neededLaneModeForSpeedChecked 40 10 =
      some (neededLaneModeForSpeed 40 10) ∧
    neededLaneModeForSpeedChecked 40 0 = none :=
  ⟨by decide, by decide,
    (neededLaneModeForSpeed_div_guard 40 10).1 (by decide),
    (neededLaneModeForSpeed_div_guard 40 0).2 (by decide)⟩

/-- C7: `validConfiguration` is a total boolean predicate: it yields
`true` exactly when the resolution pipeline succeeds and `false` exactly
when the pipeline raises, never propagating the error. -/
theorem validConfiguration_iff (g : BcmPortGroup) (st : SwitchState) :
    (validConfiguration g st = true ↔
      ∃ m, getDesiredLaneMode g st = .ok m) ∧
    (validConfiguration g st = false ↔
      ∃ e, getDesiredLaneMode g st = .error e) := by
  unfold validConfiguration
  cases h : getDesiredLaneMode g st with
  | error e => exact ⟨by simp, by simp⟩
  | ok m => exact ⟨by simp, by simp⟩

/-- C8: when every member port is disabled, the resolution skips every
port and returns the initial mode QUAD, whatever the configured speeds
and the max lane speed. -/
theorem calculateDesiredLaneMode_allDisabled (ports : List Port)
    (maxLaneSpeed : Nat) (_hlen : ports.length = 4)
    (hall : ∀ p ∈ ports, p.isDisabled = true) :
    calculateDesiredLaneMode ports maxLaneSpeed = .ok .QUAD :=
  calcGo_allDisabled maxLaneSpeed ports 0 .QUAD hall

theorem calculateDesiredLaneMode_allDisabled_witness :
    ([⟨1, 999, true⟩, ⟨2, 0, true⟩, ⟨3, 7, true⟩, ⟨4, 50, true⟩] :
      List Port).length = 4 ∧
    calculateDesiredLaneMode
      [⟨1, 999, true⟩, ⟨2, 0, true⟩, ⟨3, 7, true⟩, ⟨4, 50, true⟩] 0 =
      .ok .QUAD :=
  ⟨rfl, calculateDesiredLaneMode_allDisabled _ 0 rfl (by decide)⟩

/-- C3 (counter-evidence): with max lane speed 10, lane 0 and lane 3
disabled, lane 1 enabled at a QUAD-demanding speed and lane 2 enabled at
a DUAL-demanding speed, the resolution returns DUAL with no placement
error even though the enabled port at lane 1 violates the documented
"only lanes 0 or 2 can be enabled in DUAL mode" rule: the placement
check only sees the running mode, which is still QUAD when lane 1 is
visited. -/
theorem calculateDesiredLaneMode_dualLane1_noError :
    calculateDesiredLaneMode
      [⟨0, 10, true⟩, ⟨1, 10, false⟩, ⟨2, 20, false⟩, ⟨3, 10, true⟩] 10 =
      .ok .DUAL ∧
    (([⟨0, 10, true⟩, ⟨1, 10, false⟩, ⟨2, 20, false⟩, ⟨3, 10, true⟩] :
      List Port).get ⟨1, by decide⟩).isDisabled = false :=
  ⟨rfl, rfl⟩

/-- C6: when resolving the desired mode raises, `reconfigureIfNeeded`
returns that error with the group and hardware exactly as they were: no
member is disabled or enabled, the lane register is not written, and
the recorded lane mode is unchanged. -/
theorem reconfigureIfNeeded_error_no_mutation (g : BcmPortGroup)
    (st : SwitchState) (hw : Hw) (e : FbossError)
    (h : getDesiredLaneMode g st = .error e) :
    reconfigureIfNeeded g st hw = (some e, g, hw) := by
  simp [reconfigureIfNeeded, h]

theorem reconfigureIfNeeded_error_no_mutation_witness :
    getDesiredLaneMode
      ⟨⟨5, fun _ => true, 10⟩,
        [⟨5, fun _ => true, 10⟩, ⟨6, fun _ => true, 10⟩,
         ⟨7, fun _ => true, 10⟩, ⟨8, fun _ => true, 10⟩], .QUAD⟩
      (fun i => ⟨i, 0, false⟩) = .error .speedDefault ∧
    reconfigureIfNeeded
      ⟨⟨5, fun _ => true, 10⟩,
        [⟨5, fun _ => true, 10⟩, ⟨6, fun _ => true, 10⟩,
         ⟨7, fun _ => true, 10⟩, ⟨8, fun _ => true, 10⟩], .QUAD⟩
      (fun i => ⟨i, 0, false⟩) ⟨1, fun _ => true, []⟩ =
      (some .speedDefault,
        ⟨⟨5, fun _ => true, 10⟩,
          [⟨5, fun _ => true, 10⟩, ⟨6, fun _ => true, 10⟩,
           ⟨7, fun _ => true, 10⟩, ⟨8, fun _ => true, 10⟩], .QUAD⟩,
        ⟨1, fun _ => true, []⟩) :=
  ⟨rfl, reconfigureIfNeeded_error_no_mutation _ _ _ _ rfl⟩

/-- C5: when the resolved mode differs from the recorded one, the
reconfiguration performs, in order: a disable of every member port
(regardless of its snapshot state), one write of the new lane count to
the lane register, then an enable of exactly the members whose snapshot
state is enabled; each member's final hardware enablement equals its
snapshot enablement, so snapshot-disabled ports remain disabled. -/
theorem reconfigure_protocol_order (g : BcmPortGroup) (st : SwitchState)
    (hw : Hw) (m : LaneMode)
    (h1 : getDesiredLaneMode g st = .ok m) (h2 : m ≠ g.laneMode) :
    (reconfigureIfNeeded g st hw).2.2.log =
      hw.log ++ g.allPorts.map (fun bp => HwEvent.disablePort bp.bcmPortId)
        ++ [HwEvent.setLanes (laneCountOf m)]
        ++ (g.allPorts.filter fun bp => !(st bp.bcmPortId).isDisabled).map
            (fun bp => HwEvent.enablePort bp.bcmPortId) ∧
    ∀ bp ∈ g.allPorts,
      (reconfigureIfNeeded g st hw).2.2.portEnabled bp.bcmPortId =
        !(st bp.bcmPortId).isDisabled := by
  have hrun : reconfigureIfNeeded g st hw =
      (none, (reconfigure g st m hw).1, (reconfigure g st m hw).2) := by
    simp [reconfigureIfNeeded, h1, h2]
  rw [hrun]
  refine ⟨reconfigure_log g st m hw, fun bp hbp => ?_⟩
  show (reconfigure g st m hw).2.portEnabled bp.bcmPortId = _
  unfold reconfigure
  simp only [setActiveLanes]
  rw [foldl_enable_portEnabled, foldl_disable_portEnabled]
  by_cases hdis : (st bp.bcmPortId).isDisabled
  · have hno : bp.bcmPortId ∉ ((g.allPorts.filter fun bp2 =>
        !(st bp2.bcmPortId).isDisabled).map fun bp2 => bp2.bcmPortId) := by
      intro hmem
      rcases List.mem_map.mp hmem with ⟨bp', hbp', hid⟩
      rcases List.mem_filter.mp hbp' with ⟨_, hen⟩
      rw [hid] at hen
      simp [hdis] at hen
    have hyes : bp.bcmPortId ∈ g.allPorts.map (fun bp2 => bp2.bcmPortId) :=
      List.mem_map_of_mem _ hbp
    simp [hno, hyes, hdis]
  · have hyes : bp.bcmPortId ∈ ((g.allPorts.filter fun bp2 =>
        !(st bp2.bcmPortId).isDisabled).map fun bp2 => bp2.bcmPortId) :=
      List.mem_map_of_mem _ (List.mem_filter.mpr ⟨hbp, by simp [hdis]⟩)
    simp [hyes, hdis]

theorem reconfigure_protocol_order_witness :
    getDesiredLaneMode
      ⟨⟨5, fun _ => true, 10⟩,
        [⟨5, fun _ => true, 10⟩, ⟨6, fun _ => true, 10⟩,
         ⟨7, fun _ => true, 10⟩, ⟨8, fun _ => true, 10⟩], .QUAD⟩
      (fun i => ⟨i, 40, decide (i ≠ 5)⟩) = .ok .SINGLE ∧
    LaneMode.SINGLE ≠ LaneMode.QUAD ∧
    (reconfigureIfNeeded
      ⟨⟨5, fun _ => true, 10⟩,
        [⟨5, fun _ => true, 10⟩, ⟨6, fun _ => true, 10⟩,
         ⟨7, fun _ => true, 10⟩, ⟨8, fun _ => true, 10⟩], .QUAD⟩
      (fun i => ⟨i, 40, decide (i ≠ 5)⟩)
      ⟨1, fun _ => false, []⟩).2.2.log =
      [] ++ [HwEvent.disablePort 5, .disablePort 6, .disablePort 7,
        .disablePort 8] ++ [.setLanes 4] ++ [.enablePort 5] := by
  refine ⟨rfl, by decide, ?_⟩
  have h := (reconfigure_protocol_order
    ⟨⟨5, fun _ => true, 10⟩,
      [⟨5, fun _ => true, 10⟩, ⟨6, fun _ => true, 10⟩,
       ⟨7, fun _ => true, 10⟩, ⟨8, fun _ => true, 10⟩], .QUAD⟩
    (fun i => ⟨i, 40, decide (i ≠ 5)⟩)
    ⟨1, fun _ => false, []⟩ .SINGLE rfl (by decide)).1
  rw [h]
  rfl

/-- C1: `reconfigureIfNeeded` is a no-op (no hardware event, group and
hardware returned unchanged) when the resolved mode equals the recorded
mode, and running it a second time on an unchanged snapshot reproduces
the first result exactly, so hardware is mutated at most once. -/
theorem reconfigureIfNeeded_idempotent (g : BcmPortGroup)
    (st : SwitchState) (hw : Hw) :
    (getDesiredLaneMode g st = .ok g.laneMode →
      reconfigureIfNeeded g st hw = (none, g, hw)) ∧
    reconfigureIfNeeded (reconfigureIfNeeded g st hw).2.1 st
        (reconfigureIfNeeded g st hw).2.2 =
      reconfigureIfNeeded g st hw := by
  constructor
  · intro h
    simp [reconfigureIfNeeded, h]
  · cases h : getDesiredLaneMode g st with
    | error e =>
      simp [reconfigureIfNeeded, h]
    | ok m =>
      by_cases hm : m = g.laneMode
      · simp [reconfigureIfNeeded, h, hm]
      · have h2 : reconfigureIfNeeded g st hw =
            (none, (reconfigure g st m hw).1, (reconfigure g st m hw).2) := by
          simp [reconfigureIfNeeded, h, hm]
        rw [h2]
        have h3 : getDesiredLaneMode (reconfigure g st m hw).1 st = .ok m := by
          rw [reconfigure_fst]
          rw [getDesiredLaneMode_laneMode_irrel]
          exact h
        have h4 : (reconfigure g st m hw).1.laneMode = m := by
          rw [reconfigure_fst]
        simp [reconfigureIfNeeded, h3, h4]

theorem reconfigureIfNeeded_idempotent_witness :
    getDesiredLaneMode
      ⟨⟨5, fun _ => true, 10⟩,
        [⟨5, fun _ => true, 10⟩, ⟨6, fun _ => true, 10⟩,
         ⟨7, fun _ => true, 10⟩, ⟨8, fun _ => true, 10⟩], .QUAD⟩
      (fun i => ⟨i, 10, false⟩) =
      .ok (BcmPortGroup.laneMode
        ⟨⟨5, fun _ => true, 10⟩,
          [⟨5, fun _ => true, 10⟩, ⟨6, fun _ => true, 10⟩,
           ⟨7, fun _ => true, 10⟩, ⟨8, fun _ => true, 10⟩], .QUAD⟩) ∧
    reconfigureIfNeeded
      ⟨⟨5, fun _ => true, 10⟩,
        [⟨5, fun _ => true, 10⟩, ⟨6, fun _ => true, 10⟩,
         ⟨7, fun _ => true, 10⟩, ⟨8, fun _ => true, 10⟩], .QUAD⟩
      (fun i => ⟨i, 10, false⟩) ⟨1, fun _ => true, []⟩ =
      (none,
        ⟨⟨5, fun _ => true, 10⟩,
          [⟨5, fun _ => true, 10⟩, ⟨6, fun _ => true, 10⟩,
           ⟨7, fun _ => true, 10⟩, ⟨8, fun _ => true, 10⟩], .QUAD⟩,
        ⟨1, fun _ => true, []⟩) :=
  ⟨rfl,
    (reconfigureIfNeeded_idempotent _ _ _).1 rfl⟩

/-- C2: the recorded lane mode always matches the hardware lane-control
register: the constructor decodes it from the hardware-reported count,
and `reconfigureIfNeeded` preserves the correspondence — the recorded
mode changes only via `setActiveLanes`, together with the register. -/
theorem laneMode_matches_hardware (st : SwitchState) :
    (∀ (ctl : BcmPort) (ports : List BcmPort) (hw0 : Hw) (g : BcmPortGroup),
      mkBcmPortGroup ctl ports hw0 = .ok g →
      laneCountOf g.laneMode = hw0.lanes) ∧
    (∀ (g : BcmPortGroup) (hw : Hw),
      laneCountOf g.laneMode = hw.lanes →
      laneCountOf (reconfigureIfNeeded g st hw).2.1.laneMode =
        (reconfigureIfNeeded g st hw).2.2.lanes) := by
  constructor
  · intro ctl ports hw0 g h
    unfold mkBcmPortGroup at h
    split at h
    · cases h
    · split at h
      · cases h
      · split at h <;> cases h <;> simp_all [laneCountOf]
  · intro g hw hinv
    cases h : getDesiredLaneMode g st with
    | error e =>
      simp [reconfigureIfNeeded, h, hinv]
    | ok m =>
      by_cases hm : m = g.laneMode
      · simp [reconfigureIfNeeded, h, hm, hinv]
      · have h2 : reconfigureIfNeeded g st hw =
            (none, (reconfigure g st m hw).1, (reconfigure g st m hw).2) := by
          simp [reconfigureIfNeeded, h, hm]
        rw [h2]
        show laneCountOf (reconfigure g st m hw).1.laneMode =
          (reconfigure g st m hw).2.lanes
        rw [reconfigure_fst, reconfigure_lanes]

theorem laneMode_matches_hardware_witness :
    mkBcmPortGroup ⟨5, fun _ => true, 10⟩
      [⟨5, fun _ => true, 10⟩, ⟨6, fun _ => true, 10⟩,
       ⟨7, fun _ => true, 10⟩, ⟨8, fun _ => true, 10⟩]
      ⟨1, fun _ => true, []⟩ =
      .ok ⟨⟨5, fun _ => true, 10⟩,
        [⟨5, fun _ => true, 10⟩, ⟨6, fun _ => true, 10⟩,
         ⟨7, fun _ => true, 10⟩, ⟨8, fun _ => true, 10⟩], .QUAD⟩ ∧
    laneCountOf (BcmPortGroup.laneMode
      ⟨⟨5, fun _ => true, 10⟩,
        [⟨5, fun _ => true, 10⟩, ⟨6, fun _ => true, 10⟩,
         ⟨7, fun _ => true, 10⟩, ⟨8, fun _ => true, 10⟩], .QUAD⟩) =
      Hw.lanes ⟨1, fun _ => true, []⟩ ∧
    laneCountOf (reconfigureIfNeeded
        ⟨⟨5, fun _ => true, 10⟩,
          [⟨5, fun _ => true, 10⟩, ⟨6, fun _ => true, 10⟩,
           ⟨7, fun _ => true, 10⟩, ⟨8, fun _ => true, 10⟩], .QUAD⟩
        (fun i => ⟨i, 40, decide (i ≠ 5)⟩)
        ⟨1, fun _ => true, []⟩).2.1.laneMode =
      (reconfigureIfNeeded
        ⟨⟨5, fun _ => true, 10⟩,
          [⟨5, fun _ => true, 10⟩, ⟨6, fun _ => true, 10⟩,
           ⟨7, fun _ => true, 10⟩, ⟨8, fun _ => true, 10⟩], .QUAD⟩
        (fun i => ⟨i, 40, decide (i ≠ 5)⟩)
        ⟨1, fun _ => true, []⟩).2.2.lanes :=
  ⟨rfl,
    (laneMode_matches_hardware (fun i => ⟨i, 40, decide (i ≠ 5)⟩)).1
      ⟨5, fun _ => true, 10⟩
      [⟨5, fun _ => true, 10⟩, ⟨6, fun _ => true, 10⟩,
       ⟨7, fun _ => true, 10⟩, ⟨8, fun _ => true, 10⟩]
      ⟨1, fun _ => true, []⟩
      ⟨⟨5, fun _ => true, 10⟩,
        [⟨5, fun _ => true, 10⟩, ⟨6, fun _ => true, 10⟩,
         ⟨7, fun _ => true, 10⟩, ⟨8, fun _ => true, 10⟩], .QUAD⟩ rfl,
    (laneMode_matches_hardware (fun i => ⟨i, 40, decide (i ≠ 5)⟩)).2
      _ _ rfl⟩

/-- C9: enabling one previously disabled port, demanding at least as
many lanes as every other enabled port, can only move a successful
resolution toward more lanes: the new result sits between SINGLE and
the previous result in the SINGLE < DUAL < QUAD order. -/
theorem resolution_monotone (a0 a1 a2 a3 b : Port) (i : Fin 4)
    (maxLaneSpeed : Nat) (mA mB : LaneMode)
    (hdis : ([a0, a1, a2, a3].get i).isDisabled = true)
    (_hen : b.isDisabled = false)
    (_hhigher : ∀ j : Fin 4, j ≠ i →
      ([a0, a1, a2, a3].get j).isDisabled = false →
      rank (needD maxLaneSpeed b) ≤
        rank (needD maxLaneSpeed ([a0, a1, a2, a3].get j)))
    (hA : calculateDesiredLaneMode [a0, a1, a2, a3] maxLaneSpeed = .ok mA)
    (hB : calculateDesiredLaneMode ([a0, a1, a2, a3].set i.val b)
      maxLaneSpeed = .ok mB) :
    rank .SINGLE ≤ rank mB ∧ rank mB ≤ rank mA := by
  have hA' := calcGo_ok_eq_foldl maxLaneSpeed [a0, a1, a2, a3] 0 .QUAD mA hA
  have hB' := calcGo_ok_eq_foldl maxLaneSpeed
    ([a0, a1, a2, a3].set i.val b) 0 .QUAD mB hB
  refine ⟨by simp [rank], ?_⟩
  subst hA'
  subst hB'
  fin_cases i
  · have hd : a0.isDisabled = true := hdis
    show rank (step maxLaneSpeed (step maxLaneSpeed (step maxLaneSpeed
        (step maxLaneSpeed .QUAD b) a1) a2) a3) ≤
      rank (step maxLaneSpeed (step maxLaneSpeed (step maxLaneSpeed
        (step maxLaneSpeed .QUAD a0) a1) a2) a3)
    have h0 : step maxLaneSpeed .QUAD a0 = .QUAD := by simp [step, hd]
    rw [h0]
    exact step_mono _ a3 (step_mono _ a2 (step_mono _ a1
      (rank_step_le _ _ b)))
  · have hd : a1.isDisabled = true := hdis
    show rank (step maxLaneSpeed (step maxLaneSpeed (step maxLaneSpeed
        (step maxLaneSpeed .QUAD a0) b) a2) a3) ≤
      rank (step maxLaneSpeed (step maxLaneSpeed (step maxLaneSpeed
        (step maxLaneSpeed .QUAD a0) a1) a2) a3)
    have h1 : step maxLaneSpeed (step maxLaneSpeed .QUAD a0) a1 =
        step maxLaneSpeed .QUAD a0 := by simp [step, hd]
    rw [h1]
    exact step_mono _ a3 (step_mono _ a2 (rank_step_le _ _ b))
  · have hd : a2.isDisabled = true := hdis
    show rank (step maxLaneSpeed (step maxLaneSpeed (step maxLaneSpeed
        (step maxLaneSpeed .QUAD a0) a1) b) a3) ≤
      rank (step maxLaneSpeed (step maxLaneSpeed (step maxLaneSpeed
        (step maxLaneSpeed .QUAD a0) a1) a2) a3)
    have h2 : step maxLaneSpeed (step maxLaneSpeed
        (step maxLaneSpeed .QUAD a0) a1) a2 =
        step maxLaneSpeed (step maxLaneSpeed .QUAD a0) a1 := by
      simp [step, hd]
    rw [h2]
    exact step_mono _ a3 (rank_step_le _ _ b)
  · have hd : a3.isDisabled = true := hdis
    show rank (step maxLaneSpeed (step maxLaneSpeed (step maxLaneSpeed
        (step maxLaneSpeed .QUAD a0) a1) a2) b) ≤
      rank (step maxLaneSpeed (step maxLaneSpeed (step maxLaneSpeed
        (step maxLaneSpeed .QUAD a0) a1) a2) a3)
    have h3 : step maxLaneSpeed (step maxLaneSpeed (step maxLaneSpeed
        (step maxLaneSpeed .QUAD a0) a1) a2) a3 =
        step maxLaneSpeed (step maxLaneSpeed
          (step maxLaneSpeed .QUAD a0) a1) a2 := by
      simp [step, hd]
    rw [h3]
    exact rank_step_le _ _ b

theorem resolution_monotone_witness :
    calculateDesiredLaneMode
      [⟨0, 10, true⟩, ⟨1, 10, true⟩, ⟨2, 10, true⟩, ⟨3, 10, true⟩] 10 =
      .ok .QUAD ∧
    calculateDesiredLaneMode
      (([⟨0, 10, true⟩, ⟨1, 10, true⟩, ⟨2, 10, true⟩, ⟨3, 10, true⟩] :
        List Port).set 0 ⟨0, 40, false⟩) 10 = .ok .SINGLE ∧
    rank .SINGLE ≤ rank .SINGLE ∧ rank .SINGLE ≤ rank .QUAD :=
  ⟨rfl, rfl,
    resolution_monotone ⟨0, 10, true⟩ ⟨1, 10, true⟩ ⟨2, 10, true⟩
      ⟨3, 10, true⟩ ⟨0, 40, false⟩ 0 10 .QUAD .SINGLE rfl rfl
      (by decide) rfl rfl⟩

end BcmPortGroupModel
